import Mathlib

/-!
Formal verification of the ALO (Autonomous Learning Orchestrator) repository.

This file gives a shallow embedding, in Lean 4, of the parts of the Python
source needed to settle the frozen claims about the system:

* `src/orchestrator.py` — the `ReActEngine` reason-act loop (`run`,
  `think_and_act`), the `SecureExecutor` sandbox (`execute_bash`,
  `read_file`, `audit`), the orchestrator `LearningSystem.reflect_on_task`
  confidence computation, and `RAGSystem.chunk_text`;
* `src/learning_system.py` — `_calculate_confidence`, `_update_patterns`,
  `_update_playbook` (leading underscores dropped);
* `src/action_executor.py` — `_bash_execute` (named `bash_execute` here);
* `src/rag_system.py` — `_chunk_text` (named `rag_chunk_text` here).

Modelling conventions:
* Python dicts of string parameters become association lists
  (`List (String × String)`); dict `.get(k, default)` becomes `List.lookup`
  with `Option.getD`.
* Machine floats used by the source for confidences and times are modelled
  as rationals: every constant involved (0.8, 0.2, tenth steps) is exactly
  representable and no claim depends on rounding behaviour.
* External effects (the LLM completion provider, subprocess execution, the
  file system, path resolution, md5 hashing) are oracles passed in as
  function parameters; the completion provider is a stream indexed by the
  iteration number, whose value is `none` when its output is structurally
  malformed (a JSON parse failure in the source).
* Wall-clock timestamps are omitted from records; no claim mentions their
  values.  The `execution_time` fields that the source fills from the clock
  are carried as abstract rational inputs where a claim mentions them.
-/

namespace ALO

/-- Parameters of an action: a string-keyed mapping of string values, as in
the Python parameter dicts. -/
abbrev Params := List (String × String)

/-- Python `d.get(k, default)` on a parameters dict. -/
def getParam (p : Params) (k d : String) : String := (List.lookup k p).getD d

/-- The `action` object inside a parsed completion-provider response
(`decision["action"]` in `orchestrator.py`); both fields may be absent. -/
structure ActionDict where
  action_type : Option String
  parameters : Option Params
deriving DecidableEq

/-- A parsed completion-provider decision (`orchestrator.py`,
`ReActEngine.think_and_act` return value); each field may be absent in the
parsed JSON, so all are optional here and `run` applies the same defaults
the Python `dict.get` calls apply. -/
structure Decision where
  thought : Option String
  action : Option ActionDict
  confidence : Option ℚ
deriving DecidableEq

/-- The `Action` dataclass of `orchestrator.py` (timestamp omitted). -/
structure Action where
  action_type : String
  parameters : Params
deriving DecidableEq

/-- One recorded step of a task run: the dict appended to `history` in
`ReActEngine.run`. -/
structure Step where
  thought : String
  action : Action
  observation : String
  success : Bool
  confidence : ℚ
deriving DecidableEq

/-- The dict returned by `ReActEngine.run` (`execution_time` omitted: it is
wall-clock time and no claim constrains its value). -/
structure TaskResult where
  success : Bool
  result : String
  iterations : ℕ
  history : List Step
deriving DecidableEq

/-- `ReActEngine.think_and_act` after the LLM call, `orchestrator.py` lines
566-592: a structurally valid response parses to a `Decision`; a JSON parse
failure (modelled as `none`) is replaced by the synthetic `complete`
decision with confidence 0.0 built in the `json.JSONDecodeError` handler. -/
def think_and_act (parsed : Option Decision) : Decision :=
  match parsed with
  | some d => d
  | none =>
      ⟨some "Error parsing response",
       some ⟨some "complete", some [("result", "Error in reasoning")]⟩,
       some 0⟩

/-- The `Action` object `run` builds from a decision, `orchestrator.py`
lines 633-636: missing fields default to `"complete"` and the empty dict. -/
def decisionAction (d : Decision) : Action :=
  let ad := d.action.getD ⟨none, none⟩
  ⟨ad.action_type.getD "complete", ad.parameters.getD []⟩

/-- The iteration loop of `ReActEngine.run`, `orchestrator.py` lines
622-690, as a function of the remaining iteration budget.

* `provider i` is the parsed completion-provider output of iteration `i`
  (`none` = parse failure); the context string the source threads into the
  prompt only influences the provider, which is an arbitrary oracle here.
* `execA` is the `execute_action` dispatch (subprocess world): it returns
  the `(success, observation)` pair.
* `reflect` is `learning.reflect_on_task`; in the source it can raise (its
  file writes are not guarded), modelled by `Except`; `run` itself has no
  handler around the call, so an error propagates out of `run`.
* the returned trace (second component) collects every action passed to
  `execute_action`, to state dispatch claims.

Iterations that produce a `complete` action return without appending to
`history` and without dispatching; every other iteration dispatches the
action, appends exactly one step and continues. -/
def runLoop (provider : ℕ → Option Decision) (execA : Action → Bool × String)
    (reflectionEnabled : Bool)
    (reflect : List Step → String → Except String Unit) :
    ℕ → ℕ → List Step → List Action →
    Except String (TaskResult × List Action)
  | 0, iteration, history, dispatched =>
      Except.ok
        (⟨false, "Max iterations reached without completing task", iteration,
          history⟩, dispatched)
  | remaining + 1, iteration, history, dispatched =>
      let decision := think_and_act (provider iteration)
      let action := decisionAction decision
      if action.action_type = "complete" then
        let result := getParam action.parameters "result" "Task completed"
        if reflectionEnabled then
          match reflect history result with
          | Except.error e => Except.error e
          | Except.ok _ =>
              Except.ok (⟨true, result, iteration + 1, history⟩, dispatched)
        else
          Except.ok (⟨true, result, iteration + 1, history⟩, dispatched)
      else
        let so := execA action
        runLoop provider execA reflectionEnabled reflect remaining
          (iteration + 1)
          (history ++ [⟨decision.thought.getD "", action, so.2, so.1,
            decision.confidence.getD (1/2)⟩])
          (dispatched ++ [action])

/-- `ReActEngine.run` (`orchestrator.py` lines 601-690): starts the loop at
iteration 0 with empty history.  The initial context retrieval only feeds
the provider oracle and has no other effect on the result. -/
def run (maxIterations : ℕ) (provider : ℕ → Option Decision)
    (execA : Action → Bool × String) (reflectionEnabled : Bool)
    (reflect : List Step → String → Except String Unit) :
    Except String (TaskResult × List Action) :=
  runLoop provider execA reflectionEnabled reflect maxIterations 0 [] []

/-- Action type computed at iteration `i` from the provider stream. -/
def actionTypeAt (provider : ℕ → Option Decision) (i : ℕ) : String :=
  (decisionAction (think_and_act (provider i))).action_type

section RunLemmas

variable (provider : ℕ → Option Decision) (execA : Action → Bool × String)
variable (reflectionEnabled : Bool)
variable (reflect : List Step → String → Except String Unit)

/-- Unfolding lemma: an iteration whose decision is a `complete` action
returns at once, given that reflection does not raise. -/
lemma runLoop_complete_step
    (hrefl : ∀ h s, reflect h s = Except.ok ())
    (remaining iteration : ℕ) (history : List Step)
    (dispatched : List Action)
    (hc : actionTypeAt provider iteration = "complete") :
    runLoop provider execA reflectionEnabled reflect (remaining + 1)
        iteration history dispatched =
      Except.ok
        (⟨true,
          getParam (decisionAction (think_and_act (provider iteration))).parameters
            "result" "Task completed",
          iteration + 1, history⟩, dispatched) := by
  unfold actionTypeAt at hc
  simp only [runLoop]
  rw [if_pos hc]
  cases reflectionEnabled
  · rfl
  · simp [hrefl]

/-- Unfolding lemma: an iteration whose decision is not a `complete` action
dispatches it and recurses with one more recorded step. -/
lemma runLoop_dispatch_step
    (remaining iteration : ℕ) (history : List Step)
    (dispatched : List Action)
    (hc : actionTypeAt provider iteration ≠ "complete") :
    runLoop provider execA reflectionEnabled reflect (remaining + 1)
        iteration history dispatched =
      runLoop provider execA reflectionEnabled reflect remaining
        (iteration + 1)
        (history ++
          [⟨(think_and_act (provider iteration)).thought.getD "",
            decisionAction (think_and_act (provider iteration)),
            (execA (decisionAction (think_and_act (provider iteration)))).2,
            (execA (decisionAction (think_and_act (provider iteration)))).1,
            (think_and_act (provider iteration)).confidence.getD (1/2)⟩])
        (dispatched ++ [decisionAction (think_and_act (provider iteration))]) := by
  unfold actionTypeAt at hc
  simp only [runLoop]
  rw [if_neg hc]

/-- Main reachability lemma: if the first `i` decisions are non-`complete`
and decision `i` is `complete`, the loop stops inside iteration `i` with a
successful result, no step appended for the terminal action, and exactly
the `i` earlier actions dispatched. -/
lemma runLoop_complete_at
    (hrefl : ∀ h s, reflect h s = Except.ok ()) :
    ∀ (i remaining iteration : ℕ) (history : List Step)
      (dispatched : List Action),
      i < remaining →
      (∀ j, j < i → actionTypeAt provider (iteration + j) ≠ "complete") →
      actionTypeAt provider (iteration + i) = "complete" →
      ∃ res disp,
        runLoop provider execA reflectionEnabled reflect remaining iteration
            history dispatched = Except.ok (res, disp) ∧
        res.success = true ∧
        res.iterations = iteration + i + 1 ∧
        res.result =
          getParam
            (decisionAction (think_and_act (provider (iteration + i)))).parameters
            "result" "Task completed" ∧
        res.history.length = history.length + i ∧
        disp.length = dispatched.length + i ∧
        (∀ a ∈ disp, a ∈ dispatched ∨ a.action_type ≠ "complete") := by
  intro i
  induction i with
  | zero =>
      intro remaining iteration history dispatched hlt _hbefore hat
      obtain ⟨r, rfl⟩ : ∃ r, remaining = r + 1 := by
        refine ⟨remaining - 1, ?_⟩
        omega
      rw [Nat.add_zero] at hat
      refine ⟨_, _,
        runLoop_complete_step provider execA reflectionEnabled reflect hrefl
          r iteration history dispatched hat, rfl, ?_, rfl, ?_, ?_, ?_⟩
      · simp
      · simp
      · simp
      · intro a ha
        exact Or.inl ha
  | succ i ih =>
      intro remaining iteration history dispatched hlt hbefore hat
      obtain ⟨r, rfl⟩ : ∃ r, remaining = r + 1 := by
        refine ⟨remaining - 1, ?_⟩
        omega
      have h0 : actionTypeAt provider (iteration + 0) ≠ "complete" :=
        hbefore 0 (Nat.succ_pos i)
      rw [Nat.add_zero] at h0
      rw [runLoop_dispatch_step provider execA reflectionEnabled reflect
        r iteration history dispatched h0]
      have hbefore' : ∀ j, j < i →
          actionTypeAt provider (iteration + 1 + j) ≠ "complete" := by
        intro j hj
        have := hbefore (j + 1) (by omega)
        have harith : iteration + (j + 1) = iteration + 1 + j := by omega
        rwa [harith] at this
      have hat' : actionTypeAt provider (iteration + 1 + i) = "complete" := by
        have harith : iteration + (i + 1) = iteration + 1 + i := by omega
        rwa [harith] at hat
      obtain ⟨res, disp, heq, hsucc, hiter, hres, hhist, hdisp, hmem⟩ :=
        ih r (iteration + 1) _ _ (by omega) hbefore' hat'
      refine ⟨res, disp, heq, hsucc, ?_, ?_, ?_, ?_, ?_⟩
      · rw [hiter]
        omega
      · have harith : iteration + 1 + i = iteration + (i + 1) := by omega
        rwa [harith] at hres
      · rw [hhist]
        simp
        omega
      · rw [hdisp]
        simp
        omega
      · intro a ha
        rcases hmem a ha with hin | hne
        · rcases List.mem_append.mp hin with hin' | hin'
          · exact Or.inl hin'
          · right
            have : a = decisionAction (think_and_act (provider iteration)) :=
              List.mem_singleton.mp hin'
            rw [this]
            exact h0
        · exact Or.inr hne

/-- If no decision is ever a `complete` action, the loop runs its full
budget, appending one step and dispatching one action per iteration, and
ends with the fixed max-iterations message. -/
lemma runLoop_never_complete
    (hnc : ∀ j, actionTypeAt provider j ≠ "complete") :
    ∀ (remaining iteration : ℕ) (history : List Step)
      (dispatched : List Action),
      ∃ res disp,
        runLoop provider execA reflectionEnabled reflect remaining iteration
            history dispatched = Except.ok (res, disp) ∧
        res.success = false ∧
        res.result = "Max iterations reached without completing task" ∧
        res.iterations = iteration + remaining ∧
        res.history.length = history.length + remaining ∧
        disp.length = dispatched.length + remaining := by
  intro remaining
  induction remaining with
  | zero =>
      intro iteration history dispatched
      exact ⟨_, _, rfl, rfl, rfl, rfl, rfl, rfl⟩
  | succ r ih =>
      intro iteration history dispatched
      rw [runLoop_dispatch_step provider execA reflectionEnabled reflect
        r iteration history dispatched (hnc iteration)]
      obtain ⟨res, disp, heq, hsucc, hres, hiter, hhist, hdisp⟩ :=
        ih (iteration + 1) _ _
      refine ⟨res, disp, heq, hsucc, hres, ?_, ?_, ?_⟩
      · rw [hiter]
        omega
      · rw [hhist]
        simp
        omega
      · rw [hdisp]
        simp
        omega

end RunLemmas

/-- Claim C1: for every action whose action type is `complete` (including
the synthetic one produced on a parse failure), `ReActEngine.run`
terminates within the current iteration without dispatching the action to
the executor, and returns success with `result` equal to the parameter
`result` of the action, defaulting to "Task completed" when absent.  The
hypothesis `hrefl` records that reflection does not raise (its error
behaviour is the subject of claim C6). -/
theorem complete_action_terminates_iteration
    (maxIterations i : ℕ) (provider : ℕ → Option Decision)
    (execA : Action → Bool × String) (reflectionEnabled : Bool)
    (reflect : List Step → String → Except String Unit)
    (hrefl : ∀ h s, reflect h s = Except.ok ())
    (hi : i < maxIterations)
    (hbefore : ∀ j, j < i → actionTypeAt provider j ≠ "complete")
    (hat : actionTypeAt provider i = "complete") :
    ∃ res disp,
      run maxIterations provider execA reflectionEnabled reflect =
        Except.ok (res, disp) ∧
      res.success = true ∧
      res.iterations = i + 1 ∧
      res.result =
        getParam (decisionAction (think_and_act (provider i))).parameters
          "result" "Task completed" ∧
      disp.length = i ∧
      (∀ a ∈ disp, a.action_type ≠ "complete") := by
  have hbefore' : ∀ j, j < i → actionTypeAt provider (0 + j) ≠ "complete" := by
    intro j hj
    rw [Nat.zero_add]
    exact hbefore j hj
  have hat' : actionTypeAt provider (0 + i) = "complete" := by
    rwa [Nat.zero_add]
  obtain ⟨res, disp, heq, hsucc, hiter, hres, _hhist, hdisp, hmem⟩ :=
    runLoop_complete_at provider execA reflectionEnabled reflect hrefl i
      maxIterations 0 [] [] hi hbefore' hat'
  refine ⟨res, disp, heq, hsucc, by rw [hiter]; omega, ?_, ?_, ?_⟩
  · rwa [Nat.zero_add] at hres
  · rw [hdisp]
    simp
  · intro a ha
    rcases hmem a ha with hin | hne
    · exact absurd hin (List.not_mem_nil a)
    · exact hne

/-- Witness for C1: a provider that answers a `complete` action at
iteration 0. -/
def providerComplete : ℕ → Option Decision := fun _ =>
  some ⟨some "done", some ⟨some "complete", some [("result", "ok")]⟩, some 1⟩

/-- Stub executor: every dispatched action succeeds with empty output. -/
def execStub : Action → Bool × String := fun _ => (true, "")

/-- Reflection stub that always succeeds. -/
def reflectOkStub : List Step → String → Except String Unit :=
  fun _ _ => Except.ok ()

theorem complete_action_terminates_iteration_witness :
    ∃ res disp,
      run 3 providerComplete execStub true reflectOkStub =
        Except.ok (res, disp) ∧
      res.success = true ∧
      res.iterations = 0 + 1 ∧
      res.result =
        getParam (decisionAction (think_and_act (providerComplete 0))).parameters
          "result" "Task completed" ∧
      disp.length = 0 ∧
      (∀ a ∈ disp, a.action_type ≠ "complete") :=
  complete_action_terminates_iteration 3 0 providerComplete execStub true
    reflectOkStub (fun _ _ => rfl) (by omega) (fun j hj => absurd hj (by omega))
    (by decide)

/-- Claim C2: when the completion provider never returns a `complete`
action, `run` performs exactly `max_iterations` iterations, each one
dispatching its action and recording one step, and returns failure with the
fixed max-iterations message; the returned history has length
`max_iterations`. -/
theorem max_iterations_exhaustion
    (maxIterations : ℕ) (provider : ℕ → Option Decision)
    (execA : Action → Bool × String) (reflectionEnabled : Bool)
    (reflect : List Step → String → Except String Unit)
    (hnc : ∀ j, actionTypeAt provider j ≠ "complete") :
    ∃ res disp,
      run maxIterations provider execA reflectionEnabled reflect =
        Except.ok (res, disp) ∧
      res.success = false ∧
      res.result = "Max iterations reached without completing task" ∧
      res.iterations = maxIterations ∧
      res.history.length = maxIterations ∧
      disp.length = maxIterations := by
  obtain ⟨res, disp, heq, hsucc, hres, hiter, hhist, hdisp⟩ :=
    runLoop_never_complete provider execA reflectionEnabled reflect hnc
      maxIterations 0 [] []
  refine ⟨res, disp, heq, hsucc, hres, ?_, ?_, ?_⟩
  · rw [hiter]; omega
  · rw [hhist]; simp
  · rw [hdisp]; simp

/-- Provider that always asks for a bash action, never `complete`. -/
def providerBash : ℕ → Option Decision := fun _ =>
  some ⟨some "step", some ⟨some "bash_execute", some [("command", "ls")]⟩,
    some 1⟩

theorem max_iterations_exhaustion_witness :
    ∃ res disp,
      run 3 providerBash execStub true reflectOkStub =
        Except.ok (res, disp) ∧
      res.success = false ∧
      res.result = "Max iterations reached without completing task" ∧
      res.iterations = 3 ∧
      res.history.length = 3 ∧
      disp.length = 3 :=
  max_iterations_exhaustion 3 providerBash execStub true reflectOkStub
    (fun _ => (by decide : ¬ ("bash_execute" : String) = "complete"))

/-- Provider whose output is always structurally malformed (JSON parse
failure in `think_and_act`). -/
def providerMalformed : ℕ → Option Decision := fun _ => none

/-- Counterexample to claim C3 as stated: with a malformed provider output
in the very first iteration, `run` substitutes the synthetic `complete`
action and returns successfully — but the returned `history` is empty.
`ReActEngine.run` never appends the terminal `complete` step to `history`
(the `complete` branch at `orchestrator.py` lines 639-659 returns before
the `history.append` at lines 665-671), so the failure ends unrecorded in
the returned History, contradicting the claim that a terminal step is
always recorded. -/
theorem parse_failure_terminal_step_counterexample :
    run 3 providerMalformed execStub false reflectOkStub =
      Except.ok (⟨true, "Error in reasoning", 1, []⟩, []) := rfl

/-- Claim C3 (amended): whenever the completion-provider output of the
current iteration is structurally malformed, `think_and_act` substitutes a
synthetic `complete` action with confidence 0.0 and `run` terminates
successfully within that same iteration with result "Error in reasoning";
however the terminal step is not appended to the returned History, which
keeps exactly one step per previously dispatched non-`complete` action. -/
theorem parse_failure_synthetic_complete
    (maxIterations i : ℕ) (provider : ℕ → Option Decision)
    (execA : Action → Bool × String) (reflectionEnabled : Bool)
    (reflect : List Step → String → Except String Unit)
    (hrefl : ∀ h s, reflect h s = Except.ok ())
    (hi : i < maxIterations)
    (hbefore : ∀ j, j < i → actionTypeAt provider j ≠ "complete")
    (hmal : provider i = none) :
    (think_and_act (provider i)).confidence = some 0 ∧
    (decisionAction (think_and_act (provider i))).action_type = "complete" ∧
    ∃ res disp,
      run maxIterations provider execA reflectionEnabled reflect =
        Except.ok (res, disp) ∧
      res.success = true ∧
      res.iterations = i + 1 ∧
      res.result = "Error in reasoning" ∧
      res.history.length = i ∧
      disp.length = i := by
  have hat : actionTypeAt provider i = "complete" := by
    unfold actionTypeAt
    rw [hmal]
    rfl
  obtain ⟨res, disp, heq, hsucc, hiter, hres, hhist, hdisp, _hmem⟩ :=
    runLoop_complete_at provider execA reflectionEnabled reflect hrefl i
      maxIterations 0 [] [] hi
      (by intro j hj; rw [Nat.zero_add]; exact hbefore j hj)
      (by rwa [Nat.zero_add])
  refine ⟨by rw [hmal]; rfl, by rw [hmal]; rfl,
    res, disp, heq, hsucc, by rw [hiter]; omega, ?_, ?_, ?_⟩
  · rw [hres, Nat.zero_add, hmal]
    rfl
  · rw [hhist]
    simp
  · rw [hdisp]
    simp

theorem parse_failure_synthetic_complete_witness :
    (think_and_act (providerMalformed 0)).confidence = some 0 ∧
    (decisionAction (think_and_act (providerMalformed 0))).action_type =
      "complete" ∧
    ∃ res disp,
      run 3 providerMalformed execStub true reflectOkStub =
        Except.ok (res, disp) ∧
      res.success = true ∧
      res.iterations = 0 + 1 ∧
      res.result = "Error in reasoning" ∧
      res.history.length = 0 ∧
      disp.length = 0 :=
  parse_failure_synthetic_complete 3 0 providerMalformed execStub true
    reflectOkStub (fun _ _ => rfl) (by omega)
    (fun j hj => absurd hj (by omega)) rfl

/-- Reflection stub that always raises (a persistence failure inside
`reflect_on_task`, e.g. the `learnings.jsonl` append in `store_learning`
raising `OSError`). -/
def reflectFailStub : List Step → String → Except String Unit :=
  fun _ _ => Except.error "disk full"

/-- Counterexample to claim C6 as stated: the `reflect_on_task` call at
`orchestrator.py` lines 646-649 has no exception handler, so an error
raised inside reflection propagates out of `run` and the caller never
receives the TaskResult at all — the same run with a non-raising reflection
returns a successful TaskResult. -/
theorem reflection_error_fails_run_counterexample :
    run 3 providerComplete execStub true reflectFailStub =
      Except.error "disk full" ∧
    run 3 providerComplete execStub true reflectOkStub =
      Except.ok (⟨true, "ok", 1, []⟩, []) :=
  ⟨rfl, rfl⟩

/-- Loop-level form of the amended claim C6: when reflection never raises,
enabling it has no effect on the computation. -/
lemma runLoop_reflect_ok_eq (provider : ℕ → Option Decision)
    (execA : Action → Bool × String)
    (reflect : List Step → String → Except String Unit)
    (hrefl : ∀ h s, reflect h s = Except.ok ()) :
    ∀ (remaining iteration : ℕ) (history : List Step)
      (dispatched : List Action),
      runLoop provider execA true reflect remaining iteration history
          dispatched =
        runLoop provider execA false reflect remaining iteration history
          dispatched := by
  intro remaining
  induction remaining with
  | zero => intro iteration history dispatched; rfl
  | succ r ih =>
      intro iteration history dispatched
      by_cases hc : actionTypeAt provider iteration = "complete"
      · rw [runLoop_complete_step provider execA true reflect hrefl
          r iteration history dispatched hc,
          runLoop_complete_step provider execA false reflect hrefl
          r iteration history dispatched hc]
      · rw [runLoop_dispatch_step provider execA true reflect
          r iteration history dispatched hc,
          runLoop_dispatch_step provider execA false reflect
          r iteration history dispatched hc]
        exact ih _ _ _

/-- Claim C6 (amended): as long as the `reflect_on_task` call returns
without raising, its presence and computed value cannot change the
TaskResult `run` returns — running with reflection enabled equals running
with it disabled.  (When reflection raises, the error propagates and no
TaskResult is returned at all; see the counterexample.) -/
theorem reflection_success_no_effect
    (maxIterations : ℕ) (provider : ℕ → Option Decision)
    (execA : Action → Bool × String)
    (reflect : List Step → String → Except String Unit)
    (hrefl : ∀ h s, reflect h s = Except.ok ()) :
    run maxIterations provider execA true reflect =
      run maxIterations provider execA false reflect :=
  runLoop_reflect_ok_eq provider execA reflect hrefl maxIterations 0 [] []

theorem reflection_success_no_effect_witness :
    run 3 providerComplete execStub true reflectOkStub =
      run 3 providerComplete execStub false reflectOkStub :=
  reflection_success_no_effect 3 providerComplete execStub reflectOkStub
    (fun _ _ => rfl)

/-! Sandbox layer: `SecureExecutor` of `orchestrator.py` and
`ActionExecutor` of `action_executor.py`. -/

/-- Helper for Python substring containment: `startsWithList l p` is true
when `p` is an initial segment of `l`. -/
def startsWithList : List Char → List Char → Bool
  | _, [] => true
  | [], _ :: _ => false
  | a :: as, b :: bs => a == b && startsWithList as bs

/-- Python `sub in l` on character lists. -/
def containsSubList (sub : List Char) : List Char → Bool
  | [] => sub.isEmpty
  | c :: t => startsWithList (c :: t) sub || containsSubList sub t

/-- Python `sub in s` for strings. -/
def hasSub (s sub : String) : Bool := containsSubList sub.toList s.toList

/-- Python `s.lower()` as a character-list map.  (The library
`String.toLower` goes through well-founded recursion, which the kernel
cannot evaluate, so the lowering is done on the character list;
`Char.toLower` matches CPython for the ASCII commands the denylists use.) -/
def lowerStr (s : String) : List Char := s.toList.map Char.toLower

/-- Python `sub in s.lower()` for strings. -/
def hasSubLower (s sub : String) : Bool :=
  containsSubList sub.toList (lowerStr s)

/-- An audit record appended by `SecureExecutor.audit` (`orchestrator.py`
lines 84-94); the wall-clock timestamp field is omitted. -/
structure AuditEntry where
  action : String
  parameters : Params
  result : String
  success : Bool
deriving DecidableEq

/-- `SecureExecutor.audit`: appends exactly one entry to the audit log,
truncating the result to 500 characters. -/
def audit (log : List AuditEntry) (action : String) (parameters : Params)
    (result : String) (success : Bool) : List AuditEntry :=
  log ++ [⟨action, parameters, result.take 500, success⟩]

/-- Outcome of `asyncio.create_subprocess_shell` plus `communicate` as seen
by `execute_bash`: the process completed with a return code and combined
stdout+stderr output, or an exception was raised. -/
inductive SpawnOutcome
  | completed (returncode : Int) (output : String)
  | raised (error : String)
deriving DecidableEq

/-- The safe-mode denylist of `SecureExecutor.execute_bash`
(`orchestrator.py` line 108). -/
def dangerousCommands : List String :=
  ["rm -rf /", "dd if=", "mkfs", ":()\x7b:|:&\x7d;:", "fork bomb"]

/-- The inline safe-mode rejection condition of `execute_bash`
(`orchestrator.py` lines 107-110): safe mode is on and the lowercased
command contains a denylisted substring. -/
def bashBlocked (safe_mode : Bool) (command : String) : Bool :=
  safe_mode && dangerousCommands.any (fun d => hasSubLower command d)

/-- `SecureExecutor.execute_bash` (`orchestrator.py` lines 104-129).  The
subprocess world is the oracle `spawn`; the returned triple is the
`(success, output)` pair, the audit log after the call, and the list of
commands for which a subprocess was created (instrumentation used to state
the no-subprocess claims).  Note the safe-mode rejection path returns
before any `audit` call. -/
def execute_bash (safe_mode : Bool) (spawn : String → SpawnOutcome)
    (log : List AuditEntry) (command : String) :
    (Bool × String) × List AuditEntry × List String :=
  if bashBlocked safe_mode command then
    ((false, "Command blocked by safe mode"), log, [])
  else
    match spawn command with
    | .completed rc output =>
        ((rc == 0, output),
         audit log "bash_execute" [("command", command)] output (rc == 0),
         [command])
    | .raised e =>
        ((false, e),
         audit log "bash_execute" [("command", command)] e false,
         [command])

/-- Outcome of the guarded body of `SecureExecutor.read_file`: the file is
absent, its content was read, or an exception was raised. -/
inductive FileOutcome
  | missing
  | content (text : String)
  | raised (error : String)
deriving DecidableEq

/-- `SecureExecutor.read_file` (`orchestrator.py` lines 161-177).
`validate_path` resolves paths against the real file system, so both it
and the read itself are oracles.  Both the path-validation refusal and the
file-not-found return happen before any `audit` call. -/
def read_file (validate_path : String → Bool) (fs : String → FileOutcome)
    (log : List AuditEntry) (filepath : String) :
    (Bool × String) × List AuditEntry :=
  if !validate_path filepath then
    ((false, "Path outside workspace"), log)
  else
    match fs filepath with
    | .missing => ((false, "File not found"), log)
    | .content c =>
        ((true, c),
         audit log "file_read" [("filepath", filepath)]
           ("Read " ++ toString c.length ++ " chars") true)
    | .raised e =>
        ((false, e), audit log "file_read" [("filepath", filepath)] e false)

/-- Condition under which `read_file` returns before reaching an `audit`
call: path validation fails, or the file does not exist. -/
def readSkipsAudit (validate_path : String → Bool)
    (fs : String → FileOutcome) (filepath : String) : Bool :=
  !validate_path filepath ||
    (match fs filepath with | .missing => true | _ => false)

/-- Stub subprocess oracle. -/
def spawnStub : String → SpawnOutcome := fun _ => .completed 0 ""

/-- Counterexample to claim C4 as stated: a safe-mode command rejection and
a path-validation refusal both return without appending any audit record —
the audit log stays empty, so it is not the case that every sandbox
invocation appends an audit entry. -/
theorem safe_mode_block_no_audit_counterexample :
    execute_bash true spawnStub [] "rm -rf /" =
      ((false, "Command blocked by safe mode"), [], []) ∧
    read_file (fun _ => false) (fun _ => .missing) [] "/etc/passwd" =
      ((false, "Path outside workspace"), []) := by
  constructor
  · have hb : bashBlocked true "rm -rf /" = true := by decide
    simp [execute_bash, hb]
  · rfl

/-- Claim C4 (amended): an invocation of the sandbox appends exactly one
audit record precisely when it gets past the pre-execution guards — a
command rejected by safe mode, a file path refused by validation, and a
missing file all return with the audit log unchanged, while every executed
operation (success or exception) appends exactly one record to the end of
the log. -/
theorem audit_appended_iff_attempted
    (safe_mode : Bool) (spawn : String → SpawnOutcome)
    (validate_path : String → Bool) (fs : String → FileOutcome)
    (log : List AuditEntry) (command filepath : String) :
    (∃ t, (execute_bash safe_mode spawn log command).2.1 = log ++ t ∧
       t.length = if bashBlocked safe_mode command then 0 else 1) ∧
    (∃ t, (read_file validate_path fs log filepath).2 = log ++ t ∧
       t.length = if readSkipsAudit validate_path fs filepath then 0 else 1) := by
  constructor
  · by_cases hb : bashBlocked safe_mode command = true
    · refine ⟨[], ?_, ?_⟩ <;> simp [execute_bash, hb]
    · cases hs : spawn command with
      | completed rc output =>
          refine ⟨[⟨"bash_execute", [("command", command)], output.take 500,
            rc == 0⟩], ?_, ?_⟩ <;> simp [execute_bash, hb, hs, audit]
      | raised e =>
          refine ⟨[⟨"bash_execute", [("command", command)], e.take 500,
            false⟩], ?_, ?_⟩ <;> simp [execute_bash, hb, hs, audit]
  · by_cases hv : validate_path filepath = true
    · cases hs : fs filepath with
      | missing =>
          refine ⟨[], ?_, ?_⟩ <;> simp [read_file, readSkipsAudit, hv, hs]
      | content c =>
          refine ⟨[⟨"file_read", [("filepath", filepath)],
            ("Read " ++ toString c.length ++ " chars").take 500, true⟩],
            ?_, ?_⟩ <;> simp [read_file, readSkipsAudit, hv, hs, audit]
      | raised e =>
          refine ⟨[⟨"file_read", [("filepath", filepath)], e.take 500,
            false⟩], ?_, ?_⟩ <;>
            simp [read_file, readSkipsAudit, hv, hs, audit]
    · have hv' : validate_path filepath = false := by
        simpa using hv
      refine ⟨[], ?_, ?_⟩ <;> simp [read_file, readSkipsAudit, hv']

/-- Outcome of `subprocess.run` as seen by `ActionExecutor._bash_execute`:
completion with return code, stdout and stderr; a timeout; or another
exception. -/
inductive RunOutcome
  | completed (returncode : Int) (stdout stderr : String)
  | timedOut
  | raised (error : String)
deriving DecidableEq

/-- The safe-mode denylist of `ActionExecutor._bash_execute`
(`action_executor.py` lines 78-79). -/
def dangerousSubstrings : List String := ["rm -rf", "dd if=", "mkfs", "> /dev/"]

/-- Result subset of the observation dict returned by `_bash_execute` (the
fields the claims mention). -/
structure BashResult where
  success : Bool
  output : String
deriving DecidableEq

/-- `ActionExecutor._bash_execute` (`action_executor.py` lines 71-101).
Returns the observation together with the list of commands for which a
subprocess was started.  Python `result.stdout or result.stderr` keeps
stdout when it is non-empty. -/
def bash_execute (code_execution_enabled safe_mode : Bool)
    (runs : String → RunOutcome) (command : String) :
    BashResult × List String :=
  if !code_execution_enabled then
    (⟨false, "Code execution is disabled"⟩, [])
  else if safe_mode &&
      dangerousSubstrings.any (fun d => hasSubLower command d) then
    (⟨false, "Command blocked in safe mode"⟩, [])
  else
    match runs command with
    | .completed rc out err => (⟨rc == 0, if out ≠ "" then out else err⟩, [command])
    | .timedOut => (⟨false, "Command timed out"⟩, [command])
    | .raised e => (⟨false, e⟩, [command])

/-- Claim C5: in safe mode, the shell command "rm -rf /" is rejected by the
substring denylist with success `false` and an explanatory message, and no
subprocess is ever created — in both `SecureExecutor.execute_bash` (where
the command matches the denylist entry "rm -rf /") and
`ActionExecutor._bash_execute` (where it matches "rm -rf"), for any
subprocess oracle and whether or not code execution is enabled. -/
theorem rm_rf_blocked_no_subprocess
    (spawn : String → SpawnOutcome) (log : List AuditEntry)
    (code_execution_enabled : Bool) (runs : String → RunOutcome) :
    execute_bash true spawn log "rm -rf /" =
      ((false, "Command blocked by safe mode"), log, []) ∧
    (bash_execute code_execution_enabled true runs "rm -rf /").1.success =
      false ∧
    (bash_execute code_execution_enabled true runs "rm -rf /").2 = [] := by
  refine ⟨?_, ?_⟩
  · have hb : bashBlocked true "rm -rf /" = true := by decide
    simp [execute_bash, hb]
  · have hd : dangerousSubstrings.any
        (fun d => hasSubLower "rm -rf /" d) = true := by decide
    cases code_execution_enabled
    · exact ⟨rfl, rfl⟩
    · constructor <;> simp [bash_execute, hd]

/-! Experience memory: `learning_system.py` and the orchestrator
`LearningSystem`. -/

/-- An experience record built by `LearningSystem.store_experience`
(`learning_system.py` lines 70-111).  The md5 id, the optional context and
the timestamp are omitted: no claim constrains them.  Strategy entries are
action dicts whose `action_type` key may be absent. -/
structure Experience where
  task_type : String
  query : String
  strategy : List ActionDict
  success : Bool
  execution_time : ℚ
  failure_reason : Option String
  confidence_score : ℚ
deriving DecidableEq

/-- `LearningSystem._calculate_confidence` (`learning_system.py` lines
113-117): base score 0.8 on success and 0.2 on failure, minus the
complexity penalty `min(len(strategy)/10, 0.2)`, clamped to [0, 1]. -/
def calculate_confidence (strategy : List ActionDict) (success : Bool) : ℚ :=
  let base_score : ℚ := if success then 8/10 else 2/10
  let complexity_factor : ℚ := min ((strategy.length : ℚ) / 10) (2/10)
  max 0 (min 1 (base_score - complexity_factor))

/-- The `Learning` dataclass of `orchestrator.py` (lines 52-72); the
timestamp is omitted, and so is `prerequisites`, whose extraction goes
through the Python `repr` of parameter dicts and is constrained by no
claim. -/
structure Learning where
  task_type : String
  context : String
  successful_strategy : List Action
  failure_modes : List String
  execution_time : ℚ
  confidence_score : ℚ
deriving DecidableEq

/-- `LearningSystem._classify_task` of `orchestrator.py` (lines 417-432):
keyword matching over the lowercased query; the first matching category
wins, in the fixed order of the source. -/
def classify_task (query : String) : String :=
  if ["file", "read", "write", "create"].any
      (fun kw => hasSubLower query kw) then "file_operation"
  else if ["search", "find", "look"].any
      (fun kw => hasSubLower query kw) then "information_retrieval"
  else if ["code", "script", "program", "function"].any
      (fun kw => hasSubLower query kw) then "code_generation"
  else if ["install", "setup", "configure"].any
      (fun kw => hasSubLower query kw) then "system_setup"
  else if ["analyze", "check", "test"].any
      (fun kw => hasSubLower query kw) then "analysis"
  else "general_task"

/-- `LearningSystem.reflect_on_task` of `orchestrator.py` (lines 380-415):
builds the `Learning` stored for a finished task.  Its confidence is the
success rate of the recorded history (lines 395-398) — not the
base-minus-complexity formula of `learning_system.py`.  The `final_result`
argument is accepted and unused, as in the source. -/
def reflect_on_task (query : String) (history : List Step)
    (_final_result : String) (execution_time : ℚ) : Learning :=
  let successful_actions := history.filter (fun h => h.success)
  let failures := (history.filter (fun h => !h.success)).map
    (fun h => h.observation)
  let total_actions := history.length
  let successful_count := successful_actions.length
  let confidence : ℚ :=
    if total_actions > 0 then
      (successful_count : ℚ) / (total_actions : ℚ)
    else 0
  ⟨classify_task query, query, successful_actions.map (fun h => h.action),
   failures, execution_time, confidence⟩

/-- A single fully successful recorded step. -/
def stepOkStub : Step := ⟨"done", ⟨"bash_execute", []⟩, "ok", true, 1⟩

/-- Counterexample to claim C8 as stated: a task whose one-step history was
fully successful is stored by the orchestrator `reflect_on_task` with
confidence 1 (the success rate), while the claimed formula gives 0.7 for a
successful one-step strategy and 0.1 for a failed one — so not every
stored experience record carries the base-minus-complexity confidence. -/
theorem confidence_formula_counterexample :
    (reflect_on_task "run the code" [stepOkStub] "ok" 1).confidence_score
      = 1 ∧
    calculate_confidence [⟨some "bash_execute", some []⟩] true = 7/10 ∧
    calculate_confidence [⟨some "bash_execute", some []⟩] false = 1/10 ∧
    (1 : ℚ) ≠ 7/10 ∧ (1 : ℚ) ≠ 1/10 := by
  refine ⟨?_, ?_, ?_, by norm_num, by norm_num⟩
  · show (if (1 : ℕ) > 0 then ((1 : ℕ) : ℚ) / ((1 : ℕ) : ℚ) else 0) = 1
    norm_num
  · show max 0 (min 1 ((8 : ℚ)/10 - min (((1 : ℕ) : ℚ) / 10) (2/10))) = 7/10
    rw [show (((1 : ℕ) : ℚ) / 10) = 1/10 by norm_num]
    rw [min_eq_left (by norm_num : (1 : ℚ)/10 ≤ 2/10)]
    norm_num
  · show max 0 (min 1 ((2 : ℚ)/10 - min (((1 : ℕ) : ℚ) / 10) (2/10))) = 1/10
    rw [show (((1 : ℕ) : ℚ) / 10) = 1/10 by norm_num]
    rw [min_eq_left (by norm_num : (1 : ℚ)/10 ≤ 2/10)]
    norm_num

/-- Claim C8 (amended): experiences stored by
`LearningSystem.store_experience` (`learning_system.py`) carry the clamped
base-minus-complexity confidence, which always lies in [0, 1]; the
learnings stored by the orchestrator `reflect_on_task` instead carry the
history success rate (0 for an empty history), which also always lies in
[0, 1].  So the boundedness holds for every stored record, but the formula
describes only the `learning_system.py` path. -/
theorem confidence_bounds (strategy : List ActionDict) (success : Bool)
    (query final_result : String) (history : List Step) (t : ℚ) :
    calculate_confidence strategy success =
      max 0 (min 1 ((if success then (8 : ℚ)/10 else 2/10) -
        min ((strategy.length : ℚ) / 10) (2/10))) ∧
    0 ≤ calculate_confidence strategy success ∧
    calculate_confidence strategy success ≤ 1 ∧
    0 ≤ (reflect_on_task query history final_result t).confidence_score ∧
    (reflect_on_task query history final_result t).confidence_score ≤ 1 := by
  have hconf : (reflect_on_task query history final_result t).confidence_score
      = if history.length > 0 then
          (((history.filter (fun h => h.success)).length : ℚ) /
            (history.length : ℚ))
        else 0 := rfl
  refine ⟨rfl, le_max_left 0 _, max_le (by norm_num) (min_le_left 1 _),
    ?_, ?_⟩
  · rw [hconf]
    by_cases h : history.length > 0
    · rw [if_pos h]
      exact div_nonneg (by positivity) (by positivity)
    · rw [if_neg h]
  · rw [hconf]
    by_cases h : history.length > 0
    · rw [if_pos h]
      rw [div_le_one (by exact_mod_cast h)]
      exact_mod_cast List.length_filter_le (fun h => h.success) history
    · rw [if_neg h]
      norm_num

/-- Pattern statistics for one task type (`learning_system.py`,
`_update_patterns`). -/
structure Pattern where
  count : ℕ
  success_rate : ℚ
  common_actions : List String
  avg_execution_time : ℚ
deriving DecidableEq

/-- The pattern state of `LearningSystem` (`self.patterns`): the
`task_patterns` and `failure_patterns` dicts, modelled as association
lists updated by shadowing cons (lookup sees the latest binding, as dict
assignment does). -/
structure Patterns where
  task_patterns : List (String × Pattern)
  failure_patterns : List (String × ℕ)
deriving DecidableEq

/-- The fresh pattern inserted for an unseen task type
(`learning_system.py` lines 123-129). -/
def patternDefault : Pattern := ⟨0, 0, [], 0⟩

/-- Python `action.get("action_type", "unknown")`. -/
def actionTypeOf (a : ActionDict) : String := a.action_type.getD "unknown"

/-- The `common_actions` accumulation of `_update_patterns` (lines
139-143): append each strategy action type not already present. -/
def addCommon (acc : List String) (strategy : List ActionDict) :
    List String :=
  strategy.foldl
    (fun acc a =>
      if actionTypeOf a ∈ acc then acc else acc ++ [actionTypeOf a]) acc

/-- `LearningSystem._update_patterns` (`learning_system.py` lines
119-157).  `experiences` is `self.experiences` at call time — the
authoritative log, which `store_experience` has already extended with
`exp` before calling this.  Note the mix: `count` and `common_actions` are
updated incrementally from the cached pattern, while the success total and
the time total are recomputed from the log. -/
def update_patterns (patterns : Patterns) (experiences : List Experience)
    (exp : Experience) : Patterns :=
  let p0 := (List.lookup exp.task_type patterns.task_patterns).getD
    patternDefault
  let count := p0.count + 1
  let total_successes := (experiences.filter
    (fun e => e.task_type == exp.task_type && e.success)).length
  let success_rate := (total_successes : ℚ) / (count : ℚ)
  let common_actions := addCommon p0.common_actions exp.strategy
  let total_time := ((experiences.filter
    (fun e => e.task_type == exp.task_type)).map
      (fun e => e.execution_time)).sum
  let avg := total_time / (count : ℚ)
  let failure_patterns :=
    match exp.success, exp.failure_reason with
    | false, some reason =>
        if reason = "" then patterns.failure_patterns
        else
          let key := exp.task_type ++ ":" ++ reason
          (key, ((List.lookup key patterns.failure_patterns).getD 0) + 1) ::
            patterns.failure_patterns
    | _, _ => patterns.failure_patterns
  ⟨(exp.task_type, ⟨count, success_rate, common_actions, avg⟩) ::
     patterns.task_patterns,
   failure_patterns⟩

/-- Modelled from the spec, for comparison (claim C9): the full recompute
of the Pattern of a task type from the authoritative log — count,
success_rate = successes/count, union of distinct action types used,
average execution time, all scoped to the task type.  An empty scope
yields the all-zero default (rational division by zero is zero). -/
def recomputePatternSpec (experiences : List Experience) (tt : String) :
    Pattern :=
  let inScope := experiences.filter (fun e => e.task_type == tt)
  ⟨inScope.length,
   ((inScope.filter (fun e => e.success)).length : ℚ) / (inScope.length : ℚ),
   inScope.foldl (fun acc e => addCommon acc e.strategy) [],
   (inScope.map (fun e => e.execution_time)).sum / (inScope.length : ℚ)⟩

/-- The cached pattern the code would read for a task type. -/
def patternAt (patterns : Patterns) (tt : String) : Pattern :=
  (List.lookup tt patterns.task_patterns).getD patternDefault

/-- Consistency of the cached pattern of one task type with a full
recompute from the log. -/
def ConsistentAt (patterns : Patterns) (experiences : List Experience)
    (tt : String) : Prop :=
  patternAt patterns tt = recomputePatternSpec experiences tt

/-- A concrete successful experience. -/
def expStub : Experience := ⟨"t", "q", [], true, 2, none, 1⟩

/-- Counterexample to claim C9 as stated: applying `_update_patterns` twice
for the same experience (the log containing it once) leaves a cached count
of 2, while the full recompute from the log gives 1 — the update is partly
incremental, so repeated updates (or a stale cache at load time) diverge
from the recompute the claim promises. -/
theorem pattern_repeat_update_counterexample :
    (patternAt
      (update_patterns (update_patterns ⟨[], []⟩ [expStub] expStub)
        [expStub] expStub) "t").count = 2 ∧
    (recomputePatternSpec [expStub] "t").count = 1 := by
  constructor <;> rfl

/-- Claim C9 (amended): `_update_patterns` preserves consistency with a
full recompute from the log only under the clean discipline of
`store_experience`: the cached pattern agreed with the log beforehand and
the update is applied exactly once, right after the experience is appended
to the log.  Under that discipline the updated cache again equals the full
recompute, for the updated task type and all others; outside it (repeated
updates, stale cache) the equality fails, as the counterexample shows. -/
theorem pattern_consistent_update
    (patterns : Patterns) (experiences : List Experience) (exp : Experience)
    (tt : String) (hcons : ConsistentAt patterns experiences tt) :
    ConsistentAt (update_patterns patterns (experiences ++ [exp]) exp)
      (experiences ++ [exp]) tt := by
  unfold ConsistentAt at hcons ⊢
  by_cases h : tt = exp.task_type
  · subst h
    have hp0 : (List.lookup exp.task_type patterns.task_patterns).getD
        patternDefault = recomputePatternSpec experiences exp.task_type :=
      hcons
    have hfilter : (experiences ++ [exp]).filter
        (fun e => e.task_type == exp.task_type) =
        experiences.filter (fun e => e.task_type == exp.task_type) ++
          [exp] := by
      simp [List.filter_append]
    have hsplit : (experiences ++ [exp]).filter
        (fun e => e.task_type == exp.task_type && e.success) =
        ((experiences ++ [exp]).filter
          (fun e => e.task_type == exp.task_type)).filter
            (fun e => e.success) := by
      rw [List.filter_filter]
      refine List.filter_congr ?_
      intro a _
      exact Bool.and_comm _ _
    have hL : patternAt
        (update_patterns patterns (experiences ++ [exp]) exp)
        exp.task_type =
        ⟨(recomputePatternSpec experiences exp.task_type).count + 1,
         ((((experiences ++ [exp]).filter
             (fun e => e.task_type == exp.task_type && e.success)).length :
            ℚ) /
           (((recomputePatternSpec experiences exp.task_type).count + 1 :
             ℕ) : ℚ)),
         addCommon
           (recomputePatternSpec experiences exp.task_type).common_actions
           exp.strategy,
         ((((experiences ++ [exp]).filter
             (fun e => e.task_type == exp.task_type)).map
               (fun e => e.execution_time)).sum /
           (((recomputePatternSpec experiences exp.task_type).count + 1 :
             ℕ) : ℚ))⟩ := by
      simp only [patternAt, update_patterns, List.lookup_cons_self,
        Option.getD_some, hp0]
    rw [hL, hsplit, hfilter]
    unfold recomputePatternSpec
    simp [List.foldl_append]
  · have hbeq : (tt == exp.task_type) = false := beq_eq_false_iff_ne.mpr h
    have hL : patternAt
        (update_patterns patterns (experiences ++ [exp]) exp) tt =
        patternAt patterns tt := by
      simp [patternAt, update_patterns, List.lookup_cons, hbeq]
    have hexp : (exp.task_type == tt) = false :=
      beq_eq_false_iff_ne.mpr (Ne.symm h)
    have hscoped : (experiences ++ [exp]).filter
        (fun e => e.task_type == tt) =
        experiences.filter (fun e => e.task_type == tt) := by
      simp [List.filter_append, hexp]
    have hR : recomputePatternSpec (experiences ++ [exp]) tt =
        recomputePatternSpec experiences tt := by
      unfold recomputePatternSpec
      rw [hscoped]
    rw [hL, hR]
    exact hcons

theorem pattern_consistent_update_witness :
    ConsistentAt (update_patterns ⟨[], []⟩ ([] ++ [expStub]) expStub)
      ([] ++ [expStub]) "t" :=
  pattern_consistent_update ⟨[], []⟩ [] expStub "t"
    (by
      show patternAt ⟨[], []⟩ "t" = recomputePatternSpec [] "t"
      show patternDefault = recomputePatternSpec [] "t"
      unfold recomputePatternSpec patternDefault
      norm_num)

/-- A playbook entry (`learning_system.py`, `_update_playbook` lines
173-179). -/
structure PlaybookEntry where
  hash : String
  strategy : List ActionDict
  confidence : ℚ
  execution_time : ℚ
  query_example : String
deriving DecidableEq

/-- The `strategies` dict of the playbook, task type to entry list;
modelled like the other dicts as an association list updated by shadowing
cons.  (The `capabilities` list of the source file is untouched by
`_update_playbook` and omitted.) -/
abbrev Playbook := List (String × List PlaybookEntry)

/-- Descending-confidence comparison used by the playbook sort
(`sorted(..., key=lambda x: x["confidence"], reverse=True)`). -/
def entryGE (a b : PlaybookEntry) : Prop := b.confidence ≤ a.confidence

instance : DecidableRel entryGE := fun a b =>
  inferInstanceAs (Decidable (b.confidence ≤ a.confidence))

instance : IsTotal PlaybookEntry entryGE :=
  ⟨fun a b => le_total b.confidence a.confidence⟩

instance : IsTrans PlaybookEntry entryGE :=
  ⟨fun _ _ _ hab hbc => le_trans hbc hab⟩

/-- `LearningSystem._update_playbook` (`learning_system.py` lines
159-188): below the confidence threshold nothing changes; otherwise the
strategy is hashed (`hashOf` stands for the md5 of the canonical strategy
JSON) and inserted only when no existing entry for the task type carries
the same hash, after which the entry list is re-sorted by confidence
descending and truncated to the top 5. -/
def update_playbook (threshold : ℚ) (hashOf : List ActionDict → String)
    (playbook : Playbook) (exp : Experience) : Playbook :=
  if threshold ≤ exp.confidence_score then
    let entries := (List.lookup exp.task_type playbook).getD []
    let strategy_hash := hashOf exp.strategy
    if entries.any (fun s => s.hash == strategy_hash) then playbook
    else
      (exp.task_type,
        (List.insertionSort entryGE (entries ++
          [⟨strategy_hash, exp.strategy, exp.confidence_score,
            exp.execution_time, exp.query⟩])).take 5) :: playbook
  else playbook

/-- The playbook invariant of claim C7: every task type holds at most 5
entries, sorted by confidence descending, with pairwise distinct strategy
hashes. -/
def PlaybookInv (pb : Playbook) : Prop :=
  ∀ tt : String,
    ((List.lookup tt pb).getD []).length ≤ 5 ∧
    List.Sorted entryGE ((List.lookup tt pb).getD []) ∧
    (((List.lookup tt pb).getD []).map PlaybookEntry.hash).Nodup

/-- Claim C7: `_update_playbook` preserves the playbook invariant — after
any update every task type still holds at most 5 entries, sorted by
confidence descending and deduplicated by strategy hash — and a strategy
whose hash is already present for its task type is not inserted (the
playbook is returned unchanged). -/
theorem playbook_invariant_preserved (threshold : ℚ)
    (hashOf : List ActionDict → String) (pb : Playbook) (exp : Experience)
    (hinv : PlaybookInv pb) :
    PlaybookInv (update_playbook threshold hashOf pb exp) ∧
    (((List.lookup exp.task_type pb).getD []).any
        (fun s => s.hash == hashOf exp.strategy) = true →
      update_playbook threshold hashOf pb exp = pb) := by
  constructor
  · by_cases hth : threshold ≤ exp.confidence_score
    · by_cases hex : ((List.lookup exp.task_type pb).getD []).any
          (fun s => s.hash == hashOf exp.strategy) = true
      · have : update_playbook threshold hashOf pb exp = pb := by
          unfold update_playbook
          rw [if_pos hth, if_pos hex]
        rw [this]
        exact hinv
      · have hupd : update_playbook threshold hashOf pb exp =
            (exp.task_type,
              (List.insertionSort entryGE
                (((List.lookup exp.task_type pb).getD []) ++
                  [⟨hashOf exp.strategy, exp.strategy, exp.confidence_score,
                    exp.execution_time, exp.query⟩])).take 5) :: pb := by
          unfold update_playbook
          rw [if_pos hth, if_neg hex]
        rw [hupd]
        intro tt
        by_cases htt : tt = exp.task_type
        · rw [htt, List.lookup_cons_self, Option.getD_some]
          set newE : PlaybookEntry :=
            ⟨hashOf exp.strategy, exp.strategy, exp.confidence_score,
              exp.execution_time, exp.query⟩ with hnewE
          set old := (List.lookup exp.task_type pb).getD [] with hold
          have hsorted : List.Sorted entryGE
              (List.insertionSort entryGE (old ++ [newE])) :=
            List.sorted_insertionSort entryGE (old ++ [newE])
          have hperm : List.Perm (List.insertionSort entryGE (old ++ [newE]))
              (old ++ [newE]) :=
            List.perm_insertionSort entryGE (old ++ [newE])
          refine ⟨?_, ?_, ?_⟩
          · rw [List.length_take]
            exact min_le_left 5 _
          · exact hsorted.sublist (List.take_sublist 5 _)
          · have hnotmem : newE.hash ∉ old.map PlaybookEntry.hash := by
              intro hmem
              obtain ⟨s, hs, hseq⟩ := List.mem_map.mp hmem
              have : old.any (fun s => s.hash == hashOf exp.strategy) =
                  true := by
                refine List.any_eq_true.mpr ⟨s, hs, ?_⟩
                simp [hnewE] at hseq
                simp [hseq]
              exact hex (hold ▸ this)
            have hnodup : ((old ++ [newE]).map PlaybookEntry.hash).Nodup := by
              rw [List.map_append]
              refine List.Nodup.append ?_ (List.nodup_singleton _) ?_
              · exact hold ▸ (hinv exp.task_type).2.2
              · intro x hx hx'
                have : x = newE.hash := List.mem_singleton.mp hx'
                rw [this] at hx
                exact hnotmem hx
            have hnodup' : ((List.insertionSort entryGE
                (old ++ [newE])).map PlaybookEntry.hash).Nodup :=
              ((hperm.map PlaybookEntry.hash).nodup_iff).mpr hnodup
            exact hnodup'.sublist
              ((List.take_sublist 5 _).map PlaybookEntry.hash)
        · have hbeq : (tt == exp.task_type) = false :=
            beq_eq_false_iff_ne.mpr htt
          rw [List.lookup_cons, hbeq]
          exact hinv tt
    · have : update_playbook threshold hashOf pb exp = pb := by
        unfold update_playbook
        rw [if_neg hth]
      rw [this]
      exact hinv
  · intro hex
    unfold update_playbook
    by_cases hth : threshold ≤ exp.confidence_score
    · rw [if_pos hth, if_pos hex]
    · rw [if_neg hth]

/-- Concrete playbook, entry and hash oracle for the C7 witness. -/
def hashStub : List ActionDict → String := fun _ => "h"

def entryStub : PlaybookEntry := ⟨"h", [], 8/10, 1, "q0"⟩

def playbookStub : Playbook := [("t", [entryStub])]

lemma playbookStub_inv : PlaybookInv playbookStub := by
  intro tt
  by_cases h : tt = "t"
  · subst h
    refine ⟨?_, ?_, ?_⟩ <;>
      simp [playbookStub, List.lookup_cons_self, List.Sorted]
  · have hbeq : (tt == "t") = false := beq_eq_false_iff_ne.mpr h
    rw [show playbookStub = [("t", [entryStub])] from rfl,
      List.lookup_cons, hbeq]
    exact ⟨by simp, by simp [List.Sorted], by simp⟩

theorem playbook_invariant_preserved_witness :
    PlaybookInv (update_playbook (6/10) hashStub playbookStub expStub) ∧
    update_playbook (6/10) hashStub playbookStub expStub = playbookStub :=
  ⟨(playbook_invariant_preserved (6/10) hashStub playbookStub expStub
      playbookStub_inv).1,
   (playbook_invariant_preserved (6/10) hashStub playbookStub expStub
      playbookStub_inv).2 (by decide)⟩

/-! Text chunking: `RAGSystem.chunk_text` of `orchestrator.py` and
`RAGSystem._chunk_text` of `rag_system.py`. -/

/-- Python slice index normalisation for `text[s:e]` over a text of length
`n`: a negative index counts from the end, then both ends are clamped to
[0, n]. -/
def pyNorm (n : ℕ) (i : Int) : ℕ :=
  if i < 0 then ((n : Int) + i).toNat else min i.toNat n

/-- Python `text[s:e]` on a character list. -/
def pySlice (text : List Char) (s e : Int) : List Char :=
  (text.take (pyNorm text.length e)).drop (pyNorm text.length s)

/-- The `while start < len(text)` loop of `RAGSystem.chunk_text`
(`orchestrator.py` lines 231-242), indexed by fuel: `none` means the fuel
ran out with the loop guard still true — the Python loop would still be
running.  `start` is an integer because the step
`chunk_size - chunk_overlap` can be negative in Python. -/
def chunkTextFuel (chunk_size chunk_overlap : ℕ) (text : List Char) :
    ℕ → Int → Option (List (List Char))
  | 0, start =>
      if start < (text.length : Int) then none else some []
  | fuel + 1, start =>
      if start < (text.length : Int) then
        (chunkTextFuel chunk_size chunk_overlap text fuel
            (start + ((chunk_size : Int) - (chunk_overlap : Int)))).map
          (fun rest =>
            pySlice text start (start + (chunk_size : Int)) :: rest)
      else some []

/-- `RAGSystem.chunk_text` of `orchestrator.py`, run with the given fuel
from `start = 0`. -/
def chunk_text (chunk_size chunk_overlap : ℕ) (text : List Char)
    (fuel : ℕ) : Option (List (List Char)) :=
  chunkTextFuel chunk_size chunk_overlap text fuel 0

/-- With overlap smaller than the chunk size, enough fuel always makes the
loop finish: each pass advances `start` by at least one. -/
lemma chunkTextFuel_terminates (cs co : ℕ) (text : List Char)
    (hlt : co < cs) :
    ∀ (fuel : ℕ) (start : Int),
      (text.length : Int) - start ≤ (fuel : Int) →
      ∃ chunks, chunkTextFuel cs co text fuel start = some chunks := by
  intro fuel
  induction fuel with
  | zero =>
      intro start hle
      refine ⟨[], ?_⟩
      simp only [chunkTextFuel]
      rw [if_neg (by omega)]
  | succ f ih =>
      intro start hle
      by_cases h : start < (text.length : Int)
      · obtain ⟨chunks, hc⟩ :=
          ih (start + ((cs : Int) - (co : Int))) (by push_cast at hle ⊢; omega)
        refine ⟨pySlice text start (start + (cs : Int)) :: chunks, ?_⟩
        simp only [chunkTextFuel]
        rw [if_pos h, hc]
        rfl
      · refine ⟨[], ?_⟩
        simp only [chunkTextFuel]
        rw [if_neg h]

/-- With overlap at least the chunk size, the loop guard stays true for
ever on a non-empty text: no amount of fuel finishes the loop. -/
lemma chunkTextFuel_diverges (cs co : ℕ) (text : List Char)
    (hge : cs ≤ co) :
    ∀ (fuel : ℕ) (start : Int), start < (text.length : Int) →
      chunkTextFuel cs co text fuel start = none := by
  intro fuel
  induction fuel with
  | zero =>
      intro start h
      simp only [chunkTextFuel]
      rw [if_pos h]
  | succ f ih =>
      intro start h
      have h' : start + ((cs : Int) - (co : Int)) < (text.length : Int) := by
        omega
      simp only [chunkTextFuel]
      rw [if_pos h, ih _ h']
      rfl

/-- Python `range(0, stop, step)` for a positive step. -/
def pyRangeUp (stop step : ℕ) : List ℕ :=
  List.range' 0 ((stop + step - 1) / step) step

/-- Python `str.strip()` truthiness: the chunk has a non-whitespace
character.  (`Char.isWhitespace` and the Python whitespace set agree on
the ASCII range.) -/
def stripNonempty (l : List Char) : Bool := l.any (fun c => !c.isWhitespace)

/-- `RAGSystem._chunk_text` of `rag_system.py` (lines 33-54).  `none`
models `chunk_size = chunk_overlap`, where Python `range` raises
`ValueError` (zero step); a negative step makes the range empty, so the
chunk list is empty.  Chunks are returned as (chunk_index, text) pairs; the
md5 id and the metadata/timestamp fields are omitted — no claim mentions
them. -/
def rag_chunk_text (chunk_size chunk_overlap : ℕ) (text : List Char) :
    Option (List (ℕ × List Char)) :=
  if chunk_size = chunk_overlap then none
  else if chunk_size < chunk_overlap then some []
  else
    some ((pyRangeUp text.length (chunk_size - chunk_overlap)).filterMap
      (fun i =>
        let chunk := (text.drop i).take chunk_size
        if stripNonempty chunk then
          some (i / (chunk_size - chunk_overlap), chunk)
        else none))

/-- Claim C10: under the precondition `chunk_overlap < chunk_size` both
chunking routines terminate on every text with a finite chunk list — the
orchestrator loop finishes within `len(text)` passes and the rag version
maps over a finite range — and the precondition is necessary for the
orchestrator `chunk_text`: with `chunk_overlap ≥ chunk_size` its loop makes
no forward progress and never terminates on a non-empty text. -/
theorem chunking_termination (cs co : ℕ) (text : List Char) :
    (co < cs →
      (∃ chunks, chunk_text cs co text text.length = some chunks) ∧
      (∃ chunks, rag_chunk_text cs co text = some chunks)) ∧
    (cs ≤ co → text ≠ [] → ∀ fuel, chunk_text cs co text fuel = none) := by
  constructor
  · intro h
    constructor
    · exact chunkTextFuel_terminates cs co text h text.length 0 (by omega)
    · refine ⟨(pyRangeUp text.length (cs - co)).filterMap
        (fun i =>
          let chunk := (text.drop i).take cs
          if stripNonempty chunk then
            some (i / (cs - co), chunk)
          else none), ?_⟩
      unfold rag_chunk_text
      rw [if_neg (by omega), if_neg (by omega)]
  · intro h hne fuel
    have hpos : 0 < text.length := List.length_pos.mpr hne
    unfold chunk_text
    exact chunkTextFuel_diverges cs co text h fuel 0 (by exact_mod_cast hpos)

theorem chunking_termination_witness :
    (∃ chunks,
      chunk_text 3 1 "abcde".toList ("abcde".toList.length) = some chunks) ∧
    (∃ chunks, rag_chunk_text 3 1 "abcde".toList = some chunks) ∧
    (∀ fuel, chunk_text 1 3 "ab".toList fuel = none) :=
  ⟨((chunking_termination 3 1 "abcde".toList).1 (by omega)).1,
   ((chunking_termination 3 1 "abcde".toList).1 (by omega)).2,
   (chunking_termination 1 3 "ab".toList).2 (by omega) (by decide)⟩

end ALO
